import Mathlib

/-!
Verification of the Attempt/Response lifecycle and grading engine of the
assessment backend, shallowly embedded from
`src/src/controllers/attempt.controller.ts` (service layer: `startAttempt`,
`submitAttempt`, `submitResponse`, `gradeResponse`, `autoGradeAttempt`,
`getAttemptScoreReport`, `formatAttempt`, `formatResponse`) together with the
data model of `prisma/migrations/20251016095742_first/migration.sql`.

Modelling conventions:
- Postgres `DECIMAL(65,30)` values (`maxScore`, `negativeScore`, `weight`,
  `score`, `totalScore`) are modelled as exact rationals (`Rat`); the
  JavaScript `Number(...)` conversions are taken as exact.
- SQL `NULL` is `Option.none`; nullable columns are `Option`-typed.
- Timestamps are abstract integers.
- A Prisma store is a record of lists of rows; `id` columns are primary keys
  and `(attemptId, questionId)` is a unique key on `Response`
  (`Response_attemptId_questionId_key`).
- Each service function is a pure state transformer `DB -> DB x Except e out`;
  the source throws before performing any write on its not-found paths, so the
  state is returned unchanged there.
-/

namespace AlzBackend

/-- Enum `QUESTION_TYPE` of the migration:
`('scmcq', 'mcmcq', 'numerical', 'text', 'match', 'file_upload')`.
The source value `match` is a Lean keyword, rendered `matchQ`. -/
inductive QUESTION_TYPE where
  | scmcq
  | mcmcq
  | numerical
  | text
  | matchQ
  | file_upload
deriving DecidableEq

/-- Enum `ATTEMPT_STATUS` of the migration:
`('in_progress', 'submitted', 'graded')`. -/
inductive ATTEMPT_STATUS where
  | in_progress
  | submitted
  | graded
deriving DecidableEq

/-- Row of table `Option` (fields used by the engine); named `QOption`
because `Option` is taken in Lean. -/
structure QOption where
  id : Int
  isCorrect : Bool
  weight : Rat
deriving DecidableEq

/-- Row of table `Question` (fields used by the engine), carrying its
options as the Prisma `include: { options: true }` does. -/
structure Question where
  id : Int
  type : QUESTION_TYPE
  ans : Option String
  maxScore : Rat
  negativeScore : Rat
  partialMarking : Bool
  options : List QOption
deriving DecidableEq

/-- Row of table `Test` (fields used by the engine). -/
structure TestRec where
  id : Int
  allowNegativeMarking : Bool
  allowPartialMarking : Bool
deriving DecidableEq

/-- Row of table `Attempt` (fields used by the engine). -/
structure Attempt where
  id : Int
  testId : Int
  userId : Int
  submittedAt : Option Int
  totalScore : Option Rat
  status : ATTEMPT_STATUS
deriving DecidableEq

/-- Row of table `Response`. `selectedOptionIds` is the `INTEGER[]` column
(a Prisma scalar list, never `NULL`). -/
structure ResponseRec where
  id : Int
  attemptId : Int
  questionId : Int
  selectedOptionIds : List Int
  answerText : Option String
  score : Option Rat
  evaluated : Bool
deriving DecidableEq

/-- The persistent store: the tables the engine touches, plus the sequence
backing `Response.id` (`SERIAL`). -/
structure DB where
  tests : List TestRec
  questions : List Question
  attempts : List Attempt
  responses : List ResponseRec
  nextResponseId : Int
deriving DecidableEq

/-- Error taxonomy of the service layer: every failure path is a thrown
`... not found` error, mapped by the controllers to 404s. -/
inductive SvcError where
  | testNotFound
  | attemptNotFound
  | questionNotFound
  | responseNotFound
deriving DecidableEq

/-! ### JavaScript numeric and truthiness primitives -/

/-- ASCII decimal digit test. -/
def isAsciiDigit (c : Char) : Bool :=
  decide ('0' ≤ c) && decide (c ≤ '9')

/-- Numeric value of a digit string, most significant first. -/
def natOfDigits (cs : List Char) : Nat :=
  cs.foldl (fun n c => 10 * n + (c.toNat - Char.toNat '0')) 0

/-- Exponent part of a JavaScript float literal: optional sign then digits;
an `e` not followed by a digit contributes exponent 0 (it is not consumed by
`parseFloat`, which keeps the longest valid numeric prefix). -/
def jsParseExponent (cs : List Char) : Int :=
  match cs with
  | '-' :: rest =>
      let ds := rest.takeWhile isAsciiDigit
      if ds = [] then 0 else -(natOfDigits ds : Int)
  | '+' :: rest =>
      let ds := rest.takeWhile isAsciiDigit
      if ds = [] then 0 else (natOfDigits ds : Int)
  | _ =>
      let ds := cs.takeWhile isAsciiDigit
      if ds = [] then 0 else (natOfDigits ds : Int)

/-- Model of ECMAScript `parseFloat`: strip leading whitespace, read an
optional sign, then the longest prefix of shape `digits [. digits]
[e|E [sign] digits]` with at least one digit in the mantissa; trailing
characters are ignored.  `none` models the `NaN` result on inputs that start
with no number at all.  (`Infinity` literals and non-space whitespace are not
modelled; values are kept as exact rationals rather than rounded to binary
floating point.) -/
def jsParseFloat (s : String) : Option Rat :=
  let cs0 := s.toList.dropWhile (fun c => c == ' ')
  let sign : Rat := match cs0 with
    | '-' :: _ => -1
    | _ => 1
  let cs1 : List Char := match cs0 with
    | '-' :: rest => rest
    | '+' :: rest => rest
    | _ => cs0
  let intDigits := cs1.takeWhile isAsciiDigit
  let cs2 := cs1.drop intDigits.length
  let fracDigits : List Char := match cs2 with
    | '.' :: rest => rest.takeWhile isAsciiDigit
    | _ => []
  let cs3 : List Char := match cs2 with
    | '.' :: rest => rest.drop (rest.takeWhile isAsciiDigit).length
    | _ => cs2
  if intDigits = [] ∧ fracDigits = [] then none
  else
    let mant : Rat :=
      (natOfDigits intDigits : Rat) +
        (natOfDigits fracDigits : Rat) / ((10 : Rat) ^ fracDigits.length)
    let e : Int := match cs3 with
      | 'e' :: rest => jsParseExponent rest
      | 'E' :: rest => jsParseExponent rest
      | _ => 0
    some (sign * mant * (10 : Rat) ^ e)

/-- JavaScript strict equality `===` on the results of two `parseFloat`
calls: `NaN` (modelled `none`) compares unequal to everything, itself
included. -/
def jsStrictEqNum : Option Rat → Option Rat → Bool
  | some a, some b => a == b
  | _, _ => false

/-- Truthiness of a nullable string: `null`, `undefined` and `""` are falsy. -/
def jsTruthyStr : Option String → Bool
  | some s => !(s == "")
  | none => false

/-- `data.selectedOptionIds || []` — a missing or `null` list becomes `[]`. -/
def jsOrEmptyList : Option (List Int) → List Int
  | some l => l
  | none => []

/-- `data.answerText || null` — a missing or empty string becomes `null`. -/
def jsStrOrNull : Option String → Option String
  | some s => if s == "" then none else some s
  | none => none

/-- `data.score ? parseFloat(data.score.toString()) : null` — `data.score` is
a plain JSON number here, so both a missing score and a score of `0` are
falsy and become `null`; `parseFloat(v.toString())` round-trips to `v`. -/
def jsScoreOrNull : Option Rat → Option Rat
  | some v => if v == 0 then none else some v
  | none => none

/-- `x ? Number(x) : null` applied to a nullable `DECIMAL` column value in
`formatAttempt` / `formatResponse`.  At runtime a non-`NULL` value is a
Prisma `Decimal` object, and every object is truthy in JavaScript — including
a `Decimal` holding 0 — so only SQL `NULL` maps to `null`; a stored 0 is
serialized as the number 0. -/
def decimalTernary : Option Rat → Option Rat
  | some v => some v
  | none => none

/-! ### Formatters (`formatAttempt`, `formatResponse`) -/

/-- Payload shape produced by `formatAttempt`. -/
structure AttemptOut where
  id : Int
  testId : Int
  userId : Int
  submittedAt : Option Int
  totalScore : Option Rat
  status : ATTEMPT_STATUS
deriving DecidableEq

/-- Payload shape produced by `formatResponse`. -/
structure ResponseOut where
  id : Int
  attemptId : Int
  questionId : Int
  selectedOptionIds : List Int
  answerText : Option String
  score : Option Rat
  evaluated : Bool
deriving DecidableEq

/-- `formatAttempt` of the source. -/
def formatAttempt (a : Attempt) : AttemptOut :=
  { id := a.id
    testId := a.testId
    userId := a.userId
    submittedAt := a.submittedAt
    totalScore := decimalTernary a.totalScore
    status := a.status }

/-- `formatResponse` of the source (`response.selectedOptionIds || []` is the
identity on a scalar-list column, which is never `NULL`). -/
def formatResponse (r : ResponseRec) : ResponseOut :=
  { id := r.id
    attemptId := r.attemptId
    questionId := r.questionId
    selectedOptionIds := r.selectedOptionIds
    answerText := r.answerText
    score := decimalTernary r.score
    evaluated := r.evaluated }

/-! ### Store lookups -/

/-- `prisma.test.findUnique({ where: { id } })`. -/
def findTest (s : DB) (i : Int) : Option TestRec :=
  s.tests.find? (fun t => t.id == i)

/-- `prisma.question.findUnique({ where: { id } })`. -/
def findQuestion (s : DB) (i : Int) : Option Question :=
  s.questions.find? (fun q => q.id == i)

/-- `prisma.attempt.findUnique({ where: { id } })`. -/
def findAttempt (s : DB) (i : Int) : Option Attempt :=
  s.attempts.find? (fun a => a.id == i)

/-- `prisma.response.findUnique({ where: { id } })`. -/
def findResponse (s : DB) (i : Int) : Option ResponseRec :=
  s.responses.find? (fun r => r.id == i)

/-- `prisma.response.findMany({ where: { attemptId } })` — the responses of
one attempt. -/
def responsesOf (s : DB) (attemptId : Int) : List ResponseRec :=
  s.responses.filter (fun r => r.attemptId == attemptId)

/-- The row predicate of the unique key `(attemptId, questionId)`. -/
def keyMatch (attemptId questionId : Int) (r : ResponseRec) : Bool :=
  r.attemptId == attemptId && r.questionId == questionId

/-- Lookup through the unique key `(attemptId, questionId)`. -/
def findResponseByKey (s : DB) (attemptId questionId : Int) : Option ResponseRec :=
  s.responses.find? (keyMatch attemptId questionId)

/-! ### Grading algorithm (`autoGradeAttempt` loop body) -/

/-- `question.options.find(opt => opt.id === optionId)`. -/
def optionFor (q : Question) (optionId : Int) : Option QOption :=
  q.options.find? (fun o => o.id == optionId)

/-- `option?.isCorrect` truthiness for a selected id (an id matching no
option counts as incorrect). -/
def optIsCorrect (q : Question) (optionId : Int) : Bool :=
  match optionFor q optionId with
  | some o => o.isCorrect
  | none => false

/-- Weight of the option a selected id resolves to (0 if none). -/
def optWeight (q : Question) (optionId : Int) : Rat :=
  match optionFor q optionId with
  | some o => o.weight
  | none => 0

/-- Single-choice branch: `maxScore` when exactly one option is selected and
it is the first `isCorrect` option's id (`selected[0] === correctOption?.id`),
`negativeScore` for any other non-empty selection, 0 otherwise. -/
def scmcqScore (q : Question) (selectedIds : List Int) : Rat :=
  let correctOptionId : Option Int := (q.options.find? (fun o => o.isCorrect)).map (fun o => o.id)
  if selectedIds.length = 1 ∧ selectedIds.head? = correctOptionId then q.maxScore
  else if 0 < selectedIds.length then q.negativeScore
  else 0

/-- Multi-choice branch.  Under `test.allowPartialMarking &&
question.partialMarking`, each selected id resolving to a correct option
contributes `weight * maxScore`; otherwise all-or-nothing on the three
counters the source computes. -/
def mcmcqScore (ap : Bool) (q : Question) (selectedIds : List Int) : Rat :=
  let correctCount := (selectedIds.filter (fun oid => optIsCorrect q oid)).length
  let incorrectCount := (selectedIds.filter (fun oid => !(optIsCorrect q oid))).length
  let allCorrectCount := (q.options.filter (fun o => o.isCorrect)).length
  if ap && q.partialMarking then
    (selectedIds.map (fun oid =>
      match optionFor q oid with
      | some o => if o.isCorrect then o.weight * q.maxScore else 0
      | none => 0)).sum
  else if correctCount = allCorrectCount ∧ incorrectCount = 0 ∧
      selectedIds.length = allCorrectCount then q.maxScore
  else if 0 < selectedIds.length then q.negativeScore
  else 0

/-- Numerical branch.  Both strings must be truthy; `parseFloat` never
throws in JavaScript (it yields `NaN`, which `===` compares unequal to
everything), so the source's `try`/`catch` around it is dead code and a
present-but-unparseable pair still scores `negativeScore`.  `none` is the
only skip: a missing or empty `answerText` or `question.ans`. -/
def numericalOutcome (q : Question) (r : ResponseRec) : Option Rat :=
  if jsTruthyStr r.answerText && jsTruthyStr q.ans then
    some (if jsStrictEqNum (jsParseFloat (r.answerText.getD "")) (jsParseFloat (q.ans.getD ""))
      then q.maxScore else q.negativeScore)
  else none

/-- Score this auto-grading pass assigns to one response: `some score` when
the source performs the `prisma.response.update`, `none` when the response
is skipped (non-auto-gradable type, or numerical with a missing operand). -/
def autoGradeOutcome (ap : Bool) (q : Question) (r : ResponseRec) : Option Rat :=
  match q.type with
  | QUESTION_TYPE.scmcq => some (scmcqScore q r.selectedOptionIds)
  | QUESTION_TYPE.mcmcq => some (mcmcqScore ap q r.selectedOptionIds)
  | QUESTION_TYPE.numerical => numericalOutcome q r
  | _ => none

/-- `prisma.response.update({ data: { score, evaluated: true } })` when the
pass grades the response; identity when it skips it. -/
def applyOutcome (r : ResponseRec) : Option Rat → ResponseRec
  | some sc => { r with score := some sc, evaluated := true }
  | none => r

/-- One iteration of the grading loop over a response together with its
included question. -/
def gradeResponseStep (ap : Bool) (q : Question) (r : ResponseRec) : ResponseRec :=
  applyOutcome r (autoGradeOutcome ap q r)

/-! ### Service operations -/

/-- `submitAttempt`: unconditionally sets `status = "submitted"` and
`submittedAt = submitTime || new Date()` on the existing attempt. -/
def submitAttempt (attemptId : Int) (submitTime : Option Int) (now : Int) (s : DB) :
    DB × Except SvcError AttemptOut :=
  match findAttempt s attemptId with
  | none => (s, Except.error SvcError.attemptNotFound)
  | some att =>
    let att' : Attempt :=
      { att with status := ATTEMPT_STATUS.submitted, submittedAt := some (submitTime.getD now) }
    ({ s with attempts := s.attempts.map (fun a => if a.id == attemptId then att' else a) },
      Except.ok (formatAttempt att'))

/-- Caller-supplied payload of `submitResponse` after validation
(`ResponseSubmitSchema`): every field optional and nullable. -/
structure SubmitData where
  selectedOptionIds : Option (List Int)
  answerText : Option String
  score : Option Rat
deriving DecidableEq

/-- The `create` payload of the upsert: a fresh id from the `SERIAL`
sequence, the coalesced caller fields, and `evaluated: false`. -/
def createdRow (attemptId questionId : Int) (data : SubmitData) (s : DB) : ResponseRec :=
  { id := s.nextResponseId
    attemptId := attemptId
    questionId := questionId
    selectedOptionIds := jsOrEmptyList data.selectedOptionIds
    answerText := jsStrOrNull data.answerText
    score := jsScoreOrNull data.score
    evaluated := false }

/-- `submitResponse`: verifies the attempt and the question exist, then
upserts on the unique key `(attemptId, questionId)`.  The create branch sets
`evaluated: false`; the update branch rewrites `selectedOptionIds`,
`answerText` and `score` (the latter to `null` whenever `data.score` is
falsy) and does not mention `evaluated`. -/
def submitResponse (attemptId questionId : Int) (data : SubmitData) (s : DB) :
    DB × Except SvcError ResponseOut :=
  match findAttempt s attemptId with
  | none => (s, Except.error SvcError.attemptNotFound)
  | some _ =>
    match findQuestion s questionId with
    | none => (s, Except.error SvcError.questionNotFound)
    | some _ =>
      match findResponseByKey s attemptId questionId with
      | some old =>
        let upd : ResponseRec :=
          { old with
            selectedOptionIds := jsOrEmptyList data.selectedOptionIds
            answerText := jsStrOrNull data.answerText
            score := jsScoreOrNull data.score }
        ({ s with responses := s.responses.map (fun r =>
            if keyMatch attemptId questionId r then upd else r) },
          Except.ok (formatResponse upd))
      | none =>
        ({ s with
            responses := s.responses ++ [createdRow attemptId questionId data s]
            nextResponseId := s.nextResponseId + 1 },
          Except.ok (formatResponse (createdRow attemptId questionId data s)))

/-- `gradeResponse` (manual grading): sets `score` and `evaluated: true` on
the existing response; the comment argument is accepted but not persisted;
no attempt row is touched. -/
def gradeResponse (responseId : Int) (score : Rat) (s : DB) :
    DB × Except SvcError ResponseOut :=
  match findResponse s responseId with
  | none => (s, Except.error SvcError.responseNotFound)
  | some old =>
    let upd : ResponseRec := { old with score := some score, evaluated := true }
    ({ s with responses := s.responses.map (fun r => if r.id == responseId then upd else r) },
      Except.ok (formatResponse upd))

/-- Result payload of `autoGradeAttempt`. -/
structure AutoGradeResult where
  attempt : AttemptOut
  graded_responses_count : Nat
deriving DecidableEq

/-- `attempt.test.allowPartialMarking`.  The `Attempt.testId` foreign key
guarantees the test row exists; a missing row would crash the source before
reading the flag, modelled as `false`. -/
def allowPartialOf (s : DB) (att : Attempt) : Bool :=
  match findTest s att.testId with
  | some t => t.allowPartialMarking
  | none => false

/-- Outcome of this pass for a response, resolving its question through the
`include` (the `Response.questionId` foreign key guarantees it exists; a
missing row is modelled as a skip). -/
def outcomeFor (s : DB) (ap : Bool) (r : ResponseRec) : Option Rat :=
  match findQuestion s r.questionId with
  | some q => autoGradeOutcome ap q r
  | none => none

/-- `gradedCount` of the pass: how many responses of the attempt this pass
updated (the sum of the loop's `gradedCount++` increments). -/
def agGradedCount (aid : Int) (s : DB) (ap : Bool) : Nat :=
  ((responsesOf s aid).filter (fun r => (outcomeFor s ap r).isSome)).length

/-- `totalScore` accumulated by the pass: the sum of the scores it assigned
(the sum of the loop's `totalScore += score` increments; a skipped response
contributes nothing). -/
def agTotalScore (aid : Int) (s : DB) (ap : Bool) : Rat :=
  ((responsesOf s aid).map (fun r => (outcomeFor s ap r).getD 0)).sum

/-- The response table after the pass's per-response
`prisma.response.update` writes (response ids are primary keys, so the
by-id updates are this pointwise map over the attempt's responses). -/
def agResponses (aid : Int) (s : DB) (ap : Bool) : List ResponseRec :=
  s.responses.map (fun r =>
    if r.attemptId == aid then applyOutcome r (outcomeFor s ap r) else r)

/-- `unevaluatedCount`: the re-read of the attempt's responses after the
pass, counting those still `evaluated = false`. -/
def agUnevaluatedCount (aid : Int) (s : DB) (ap : Bool) : Nat :=
  (((agResponses aid s ap).filter (fun r => r.attemptId == aid)).filter
    (fun r => !r.evaluated)).length

/-- The `prisma.attempt.update` of the pass: writes `totalScore` and
`status = unevaluatedCount === 0 ? "graded" : "submitted"`, regardless of
the attempt's previous status. -/
def agAttempt (aid : Int) (s : DB) (ap : Bool) (att : Attempt) : Attempt :=
  { att with
    totalScore := some (agTotalScore aid s ap)
    status := if agUnevaluatedCount aid s ap = 0 then ATTEMPT_STATUS.graded
      else ATTEMPT_STATUS.submitted }

/-- `autoGradeAttempt`: loads the attempt with its responses, questions,
options and test; grades each response through the loop body; counts and
sums exactly the responses this pass updated; re-reads the attempt's
responses and writes the total and the new status. -/
def autoGradeAttempt (attemptId : Int) (s : DB) :
    DB × Except SvcError AutoGradeResult :=
  match findAttempt s attemptId with
  | none => (s, Except.error SvcError.attemptNotFound)
  | some att =>
    let ap := allowPartialOf s att
    ({ s with
        attempts := s.attempts.map (fun a =>
          if a.id == attemptId then agAttempt attemptId s ap att else a)
        responses := agResponses attemptId s ap },
      Except.ok
        { attempt := formatAttempt (agAttempt attemptId s ap att)
          graded_responses_count := agGradedCount attemptId s ap })

/-- Result payload of `getAttemptScoreReport`. -/
structure ScoreReport where
  attempt : AttemptOut
  responses : List ResponseOut
  total_score : Rat
deriving DecidableEq

/-- `getAttemptScoreReport`: reads the attempt and its responses and sums
`Number(response.score)` over the responses whose `score` is not `NULL`;
performs no write. -/
def getAttemptScoreReport (attemptId : Int) (s : DB) :
    DB × Except SvcError ScoreReport :=
  match findAttempt s attemptId with
  | none => (s, Except.error SvcError.attemptNotFound)
  | some att =>
    let mine := responsesOf s attemptId
    let totalScore := (mine.map (fun r =>
      match r.score with
      | some v => v
      | none => 0)).sum
    (s, Except.ok
      { attempt := formatAttempt att
        responses := mine.map formatResponse
        total_score := totalScore })

/-! ### Generic list helpers -/

/-- A filter returning exactly one element pins down `find?`. -/
theorem find?_of_filter_single {α : Type} (p : α → Bool) (l : List α) (x : α)
    (h : l.filter p = [x]) : l.find? p = some x := by
  induction l with
  | nil => simp at h
  | cons hd t ih =>
    by_cases hp : p hd
    · rw [List.filter_cons_of_pos hp] at h
      simp only [List.find?_cons, hp, cond_true]
      exact congrArg some (List.head_eq_of_cons_eq h)
    · rw [List.filter_cons_of_neg hp] at h
      simp only [List.find?_cons, Bool.of_not_eq_true hp, cond_false]
      exact ih h

/-- Pointwise `if`-zero terms can be summed over the filtered list instead. -/
theorem sum_map_ite_zero (l : List Int) (p : Int → Bool) (f : Int → Rat) :
    (l.map (fun x => if p x then f x else 0)).sum = ((l.filter p).map f).sum := by
  induction l with
  | nil => rfl
  | cons hd t ih =>
    by_cases hp : p hd
    · rw [List.filter_cons_of_pos hp]
      simp [hp, ih]
    · rw [List.filter_cons_of_neg hp]
      simp only [List.map_cons, List.sum_cons, if_neg hp, zero_add]
      exact ih

/-! ### Claim theorems -/

/-- Claim C1: for a single-choice (`scmcq`) question with exactly one correct
option, the auto-grading pass writes `maxScore` when exactly the correct
option's id is selected, `negativeScore` for any other non-empty selection,
and 0 for an empty selection, and marks the response evaluated in every one
of these cases. -/
theorem scmcq_autograde_spec (ap : Bool) (q : Question) (r : ResponseRec) (copt : QOption)
    (htype : q.type = QUESTION_TYPE.scmcq)
    (hcorrect : q.options.filter (fun o => o.isCorrect) = [copt]) :
    gradeResponseStep ap q r =
      { r with
        score := some (
          if r.selectedOptionIds = [copt.id] then q.maxScore
          else if r.selectedOptionIds = [] then 0 else q.negativeScore)
        evaluated := true } := by
  have hfind : q.options.find? (fun o => o.isCorrect) = some copt :=
    find?_of_filter_single _ _ _ hcorrect
  have hs : scmcqScore q r.selectedOptionIds =
      (if r.selectedOptionIds = [copt.id] then q.maxScore
       else if r.selectedOptionIds = [] then 0 else q.negativeScore) := by
    unfold scmcqScore
    rw [hfind]
    rcases r.selectedOptionIds with _ | ⟨x, _ | ⟨y, t⟩⟩
    · simp
    · by_cases hx : x = copt.id <;> simp [hx]
    · simp [Nat.succ_ne_zero]
  simp only [gradeResponseStep, autoGradeOutcome, htype, applyOutcome, hs]

/-- Concrete fixture for the claim C1 witness. -/
def qC1w : Question :=
  { id := 1, type := QUESTION_TYPE.scmcq, ans := none, maxScore := 2, negativeScore := 1,
    partialMarking := false,
    options := [{ id := 10, isCorrect := false, weight := 0 },
                { id := 11, isCorrect := true, weight := 0 }] }

/-- Concrete fixture for the claim C1 witness. -/
def rC1w : ResponseRec :=
  { id := 1, attemptId := 1, questionId := 1, selectedOptionIds := [11],
    answerText := none, score := none, evaluated := false }

/-- Witness for claim C1: the hypotheses hold and the graded response gets
`maxScore = 2` on the concrete fixture. -/
theorem scmcq_autograde_spec_witness :
    qC1w.type = QUESTION_TYPE.scmcq ∧
    qC1w.options.filter (fun o => o.isCorrect) = [{ id := 11, isCorrect := true, weight := 0 }] ∧
    gradeResponseStep false qC1w rC1w = { rC1w with score := some 2, evaluated := true } := by
  refine ⟨rfl, by decide, ?_⟩
  have h := scmcq_autograde_spec false qC1w rC1w
    { id := 11, isCorrect := true, weight := 0 } rfl (by decide)
  simpa using h

/-- Terms of the partial-marking loop rewritten through `optIsCorrect` and
`optWeight`. -/
theorem partial_term_eq (q : Question) (oid : Int) :
    (match optionFor q oid with
     | some o => if o.isCorrect then o.weight * q.maxScore else 0
     | none => 0) =
    (if optIsCorrect q oid then optWeight q oid * q.maxScore else 0) := by
  unfold optIsCorrect optWeight
  rcases h : optionFor q oid with _ | o
  · simp
  · by_cases hc : o.isCorrect <;> simp [hc]

/-- Claim C3: for a multi-choice (`mcmcq`) question with both
`test.allowPartialMarking` and `question.partialMarking` set, the pass writes
the sum, over the selected ids that resolve to a correct option, of
`weight * maxScore`; it marks the response evaluated; and the score does not
depend on `question.negativeScore` in any way (incorrect selections incur no
penalty). -/
theorem mcmcq_partial_marking_spec (ap : Bool) (q : Question) (r : ResponseRec)
    (htype : q.type = QUESTION_TYPE.mcmcq)
    (hap : ap = true) (hpm : q.partialMarking = true) :
    gradeResponseStep ap q r =
      { r with
        score := some (((r.selectedOptionIds.filter (fun oid => optIsCorrect q oid)).map
          (fun oid => optWeight q oid * q.maxScore)).sum)
        evaluated := true } ∧
    (∀ n : Rat, gradeResponseStep ap { q with negativeScore := n } r = gradeResponseStep ap q r) := by
  have hbranch : ∀ (q' : Question), q'.type = QUESTION_TYPE.mcmcq → q'.partialMarking = true →
      gradeResponseStep ap q' r =
        { r with
          score := some ((r.selectedOptionIds.map (fun oid =>
            match optionFor q' oid with
            | some o => if o.isCorrect then o.weight * q'.maxScore else 0
            | none => 0)).sum)
          evaluated := true } := by
    intro q' ht hp
    simp only [gradeResponseStep, autoGradeOutcome, ht, applyOutcome, mcmcqScore, hap, hp,
      Bool.true_and, if_true, ite_true]
  constructor
  · rw [hbranch q htype hpm]
    have : (r.selectedOptionIds.map (fun oid =>
        match optionFor q oid with
        | some o => if o.isCorrect then o.weight * q.maxScore else 0
        | none => 0)).sum =
        ((r.selectedOptionIds.filter (fun oid => optIsCorrect q oid)).map
          (fun oid => optWeight q oid * q.maxScore)).sum := by
      rw [show (fun oid => match optionFor q oid with
            | some o => if o.isCorrect then o.weight * q.maxScore else 0
            | none => 0) =
          (fun oid => if optIsCorrect q oid then optWeight q oid * q.maxScore else 0) from
        funext (fun oid => partial_term_eq q oid)]
      exact sum_map_ite_zero _ _ _
    rw [this]
  · intro n
    rw [hbranch q htype hpm, hbranch { q with negativeScore := n } htype hpm]
    rfl

/-- Concrete fixture for the claim C3 witness: end-to-end scenario B of the
specification (weights 0.6 and 0.4, `maxScore = 10`, one correct and one
incorrect option selected). -/
def qC3w : Question :=
  { id := 2, type := QUESTION_TYPE.mcmcq, ans := none, maxScore := 10, negativeScore := 1,
    partialMarking := true,
    options := [{ id := 1, isCorrect := true, weight := 3 / 5 },
                { id := 2, isCorrect := true, weight := 2 / 5 },
                { id := 3, isCorrect := false, weight := 0 }] }

/-- Concrete fixture for the claim C3 witness. -/
def rC3w : ResponseRec :=
  { id := 2, attemptId := 1, questionId := 2, selectedOptionIds := [1, 3],
    answerText := none, score := none, evaluated := false }

/-- Witness for claim C3: on the concrete fixture the graded score is
`0.6 * 10 = 6` and the incorrect extra selection contributes nothing. -/
theorem mcmcq_partial_marking_spec_witness :
    qC3w.type = QUESTION_TYPE.mcmcq ∧ qC3w.partialMarking = true ∧
    gradeResponseStep true qC3w rC3w = { rC3w with score := some 6, evaluated := true } ∧
    (∀ n : Rat, gradeResponseStep true { qC3w with negativeScore := n } rC3w =
      gradeResponseStep true qC3w rC3w) := by
  have h := mcmcq_partial_marking_spec true qC3w rC3w rfl rfl rfl
  refine ⟨rfl, rfl, ?_, h.2⟩
  rw [h.1]
  have hfilter : rC3w.selectedOptionIds.filter (fun oid => optIsCorrect qC3w oid) = [1] := by
    decide
  have hw : optWeight qC3w 1 = 3 / 5 := by
    norm_num [optWeight, optionFor, qC3w, List.find?]
  rw [hfilter]
  simp only [List.map_cons, List.map_nil, List.sum_cons, List.sum_nil, add_zero, hw]
  norm_num [qC3w]

/-- Ids of the correct options of a question. -/
def correctIds (q : Question) : List Int :=
  (q.options.filter (fun o => o.isCorrect)).map (fun o => o.id)

/-- Distinct option ids (the `Option.id` primary key) make `correctIds`
duplicate-free. -/
theorem correctIds_nodup (q : Question) (hids : (q.options.map (fun o => o.id)).Nodup) :
    (correctIds q).Nodup := by
  have hsub : List.Sublist ((q.options.filter (fun o => o.isCorrect)).map (fun o => o.id))
      (q.options.map (fun o => o.id)) :=
    (List.filter_sublist _).map _
  exact hids.sublist hsub

/-- Under distinct option ids, a selected id counts as correct exactly when
it is the id of a correct option. -/
theorem optIsCorrect_iff (q : Question) (oid : Int)
    (hids : (q.options.map (fun o => o.id)).Nodup) :
    optIsCorrect q oid = true ↔ oid ∈ correctIds q := by
  constructor
  · intro h
    unfold optIsCorrect optionFor at h
    rcases hf : q.options.find? (fun o => o.id == oid) with _ | o
    · rw [hf] at h
      exact absurd h (by simp)
    · rw [hf] at h
      have hmem : o ∈ q.options := List.mem_of_find?_eq_some hf
      have hid : o.id = oid := by simpa using List.find?_some hf
      exact hid ▸ List.mem_map.mpr ⟨o, List.mem_filter.mpr ⟨hmem, h⟩, rfl⟩
  · intro h
    rcases List.mem_map.mp h with ⟨o, homem, hoid⟩
    rcases List.mem_filter.mp homem with ⟨hmem, hcorr⟩
    rcases hf : q.options.find? (fun o => o.id == oid) with _ | o'
    · rw [List.find?_eq_none] at hf
      exact absurd (by simp [hoid] : (o.id == oid) = true) (by simpa using hf o hmem)
    · have hmem' : o' ∈ q.options := List.mem_of_find?_eq_some hf
      have hid' : o'.id = oid := by simpa using List.find?_some hf
      have heq : o' = o := List.inj_on_of_nodup_map hids hmem' hmem (by rw [hid', hoid])
      unfold optIsCorrect optionFor
      rw [hf, heq]
      exact hcorr

/-- The source's all-or-nothing test — `correctCount === allCorrectCount`,
`incorrectCount === 0`, `selectedIds.length === allCorrectCount` — holds
exactly when the set of selected ids equals the set of correct option ids,
provided the selection has no duplicates and option ids are distinct. -/
theorem allOrNothing_iff (q : Question) (sel : List Int)
    (hsel : sel.Nodup) (hids : (q.options.map (fun o => o.id)).Nodup) :
    ((sel.filter (fun oid => optIsCorrect q oid)).length =
        (q.options.filter (fun o => o.isCorrect)).length ∧
      (sel.filter (fun oid => !(optIsCorrect q oid))).length = 0 ∧
      sel.length = (q.options.filter (fun o => o.isCorrect)).length) ↔
    sel.toFinset = (correctIds q).toFinset := by
  have hclen : (correctIds q).length = (q.options.filter (fun o => o.isCorrect)).length :=
    List.length_map _ _
  have hcnodup := correctIds_nodup q hids
  constructor
  · rintro ⟨h1, h2, h3⟩
    have hall : ∀ oid ∈ sel, optIsCorrect q oid = true := by
      intro oid hmem
      by_contra hno
      have hin : oid ∈ sel.filter (fun oid => !(optIsCorrect q oid)) :=
        List.mem_filter.mpr ⟨hmem, by simpa using hno⟩
      rw [List.length_eq_zero] at h2
      rw [h2] at hin
      exact absurd hin (List.not_mem_nil _)
    have hsub : sel.toFinset ⊆ (correctIds q).toFinset := by
      intro x hx
      rw [List.mem_toFinset] at hx ⊢
      exact (optIsCorrect_iff q x hids).mp (hall x hx)
    have hcard : (correctIds q).toFinset.card ≤ sel.toFinset.card := by
      rw [List.toFinset_card_of_nodup hsel, List.toFinset_card_of_nodup hcnodup, hclen, h3]
    exact Finset.eq_of_subset_of_card_le hsub hcard
  · intro hfin
    have hmemiff : ∀ x : Int, x ∈ sel ↔ x ∈ correctIds q := by
      intro x
      rw [← List.mem_toFinset, hfin, List.mem_toFinset]
    have hall : ∀ oid ∈ sel, optIsCorrect q oid = true := fun oid hm =>
      (optIsCorrect_iff q oid hids).mpr ((hmemiff oid).mp hm)
    have hlen : sel.length = (correctIds q).length := by
      rw [← List.toFinset_card_of_nodup hsel, ← List.toFinset_card_of_nodup hcnodup, hfin]
    refine ⟨?_, ?_, ?_⟩
    · rw [List.filter_eq_self.mpr hall, hlen, hclen]
    · rw [List.length_eq_zero, List.filter_eq_nil_iff]
      intro a ha
      simp [hall a ha]
    · rw [hlen, hclen]

/-- Claim C2: for a multi-choice (`mcmcq`) question graded in all-or-nothing
mode (the two partial-marking flags not both set), the pass writes `maxScore`
exactly when the set of selected ids equals the set of correct option ids,
`negativeScore` for any other non-empty selection, 0 for an empty selection,
and marks the response evaluated in all cases. -/
theorem mcmcq_all_or_nothing_spec (ap : Bool) (q : Question) (r : ResponseRec)
    (htype : q.type = QUESTION_TYPE.mcmcq)
    (hmode : (ap && q.partialMarking) = false)
    (hsel : r.selectedOptionIds.Nodup)
    (hids : (q.options.map (fun o => o.id)).Nodup) :
    gradeResponseStep ap q r =
      { r with
        score := some (
          if r.selectedOptionIds.toFinset = (correctIds q).toFinset then q.maxScore
          else if r.selectedOptionIds = [] then 0 else q.negativeScore)
        evaluated := true } := by
  have hs : mcmcqScore ap q r.selectedOptionIds =
      (if r.selectedOptionIds.toFinset = (correctIds q).toFinset then q.maxScore
       else if r.selectedOptionIds = [] then 0 else q.negativeScore) := by
    unfold mcmcqScore
    rw [hmode]
    simp only [Bool.false_eq_true, if_false]
    rw [if_congr (allOrNothing_iff q r.selectedOptionIds hsel hids) rfl rfl]
    by_cases hset : r.selectedOptionIds.toFinset = (correctIds q).toFinset
    · simp [hset]
    · simp only [if_neg hset]
      rcases r.selectedOptionIds with _ | ⟨x, t⟩
      · simp
      · simp
  simp only [gradeResponseStep, autoGradeOutcome, htype, applyOutcome, hs]

/-- Concrete fixture for the claim C2 witness: two correct options selected
in the opposite order, which is exact set equality. -/
def qC2w : Question :=
  { id := 3, type := QUESTION_TYPE.mcmcq, ans := none, maxScore := 3, negativeScore := 1,
    partialMarking := false,
    options := [{ id := 1, isCorrect := true, weight := 0 },
                { id := 2, isCorrect := true, weight := 0 },
                { id := 3, isCorrect := false, weight := 0 }] }

/-- Concrete fixture for the claim C2 witness. -/
def rC2w : ResponseRec :=
  { id := 4, attemptId := 1, questionId := 3, selectedOptionIds := [2, 1],
    answerText := none, score := none, evaluated := false }

/-- Witness for claim C2: the hypotheses hold on the concrete fixture and
the out-of-order exact selection earns `maxScore = 3`. -/
theorem mcmcq_all_or_nothing_spec_witness :
    (qC2w.type = QUESTION_TYPE.mcmcq ∧ (false && qC2w.partialMarking) = false ∧
      rC2w.selectedOptionIds.Nodup ∧ (qC2w.options.map (fun o => o.id)).Nodup) ∧
    gradeResponseStep false qC2w rC2w = { rC2w with score := some 3, evaluated := true } := by
  refine ⟨⟨rfl, rfl, by decide, by decide⟩, ?_⟩
  have h := mcmcq_all_or_nothing_spec false qC2w rC2w rfl rfl (by decide) (by decide)
  rw [h]
  have hset : rC2w.selectedOptionIds.toFinset = (correctIds qC2w).toFinset := by decide
  rw [if_pos hset]
  rfl

/-- Concrete numerical fixture: expected answer `"3.14"`, submitted answer
`"pi"`, `maxScore = 2`, `negativeScore = 1`. -/
def qC4 : Question :=
  { id := 7, type := QUESTION_TYPE.numerical, ans := some "3.14", maxScore := 2,
    negativeScore := 1, partialMarking := false, options := [] }

/-- Concrete response fixture with the unparseable answer text `"pi"`. -/
def rC4 : ResponseRec :=
  { id := 3, attemptId := 5, questionId := 7, selectedOptionIds := [],
    answerText := some "pi", score := none, evaluated := false }

/-- Claim C4 (code bug): `parseFloat` never throws in JavaScript — it yields
`NaN`, which `===` compares unequal to everything — so a present but
unparseable numerical answer is scored `negativeScore` and marked evaluated,
instead of being skipped as the claim (and the source's own catch-block
comment `Invalid numerical values, skip auto-grading`) states. -/
theorem numerical_unparseable_scored :
    jsParseFloat "pi" = none ∧
    gradeResponseStep false qC4 rC4 =
      { rC4 with score := some qC4.negativeScore, evaluated := true } := by
  decide

/-- Counterexample for claim C10: a stored score of exactly 0 is serialized
as the number 0, not as `null` (the stored value is a truthy Prisma
`Decimal` object), and likewise for a stored `totalScore` of 0. -/
theorem zero_score_serializes_as_zero_cex :
    (formatResponse { id := 1, attemptId := 1, questionId := 1, selectedOptionIds := [],
                      answerText := none, score := some 0, evaluated := true }).score = some 0 ∧
    (formatAttempt { id := 1, testId := 1, userId := 1, submittedAt := none,
                     totalScore := some 0, status := ATTEMPT_STATUS.graded }).totalScore = some 0 ∧
    some (0 : Rat) ≠ (none : Option Rat) := by
  decide

/-- Claim C10 as amended: the serializers preserve the stored `score` and
`totalScore` exactly — `null` stays `null` and every non-`NULL` decimal,
including 0, is emitted as its numeric value — so a zero score remains
distinguishable from an absent one at the public interface. -/
theorem format_preserves_stored_scores (r : ResponseRec) (a : Attempt) :
    (formatResponse r).score = r.score ∧
    (formatAttempt a).totalScore = a.totalScore ∧
    ((formatResponse r).score = none ↔ r.score = none) := by
  unfold formatResponse formatAttempt decimalTernary
  rcases r.score with _ | v <;> rcases a.totalScore with _ | w <;> simp

/-- Test fixture with both policy flags off. -/
def tC8 : TestRec := { id := 1, allowNegativeMarking := false, allowPartialMarking := false }

/-- Submitted attempt fixture holding only the unparseable numerical
response. -/
def aC8 : Attempt :=
  { id := 5, testId := 1, userId := 1, submittedAt := some 0, totalScore := none,
    status := ATTEMPT_STATUS.submitted }

/-- Store fixture for the claim C8 failing input. -/
def dbC8 : DB :=
  { tests := [tC8], questions := [qC4], attempts := [aC8], responses := [rC4],
    nextResponseId := 4 }

/-- Claim C8 (code bug): on an attempt whose only response is a numerical
answer that does not parse, the pass still grades it (`negativeScore = 1`)
and writes `totalScore = 1`, whereas the claim's sum over single-choice,
multi-choice and successfully parsed numerical responses is 0 — the
discrepancy has the same root cause as claim C4. -/
theorem totalScore_counts_unparseable_numerical :
    jsParseFloat "pi" = none ∧
    (autoGradeAttempt 5 dbC8).fst.attempts =
      [{ aC8 with totalScore := some 1, status := ATTEMPT_STATUS.graded }] ∧
    (1 : Rat) ≠ 0 := by
  refine ⟨by decide, ?_, by norm_num⟩
  have hfind : findAttempt dbC8 5 = some aC8 := by decide
  have hap : allowPartialOf dbC8 aC8 = false := by decide
  have hmine : responsesOf dbC8 5 = [rC4] := by decide
  have hout : outcomeFor dbC8 false rC4 = some 1 := by decide
  have hts : agTotalScore 5 dbC8 false = 1 := by
    rw [agTotalScore, hmine]
    simp [hout]
  have huneval : agUnevaluatedCount 5 dbC8 false = 0 := by decide
  have hattlist : dbC8.attempts = [aC8] := rfl
  simp only [autoGradeAttempt, hfind, hap, hattlist, List.map_cons, List.map_nil]
  rw [if_pos (by decide : (aC8.id == (5 : Int)) = true)]
  rw [agAttempt, hts, huneval]
  simp

/-- The `Response_attemptId_questionId_key` unique index: no two rows share
an `(attemptId, questionId)` pair. -/
def keyUnique (l : List ResponseRec) : Prop :=
  l.Pairwise (fun r1 r2 => r1.attemptId ≠ r2.attemptId ∨ r1.questionId ≠ r2.questionId)

/-- Unpacking the key predicate. -/
theorem keyMatch_iff (a q : Int) (r : ResponseRec) :
    keyMatch a q r = true ↔ r.attemptId = a ∧ r.questionId = q := by
  simp [keyMatch]

/-- Under the unique index, a successful key lookup pins the whole filter
down to that single row. -/
theorem filter_key_single (a q : Int) (l : List ResponseRec) (x : ResponseRec)
    (hwf : l.Pairwise (fun r1 r2 => r1.attemptId ≠ r2.attemptId ∨ r1.questionId ≠ r2.questionId))
    (hfind : l.find? (keyMatch a q) = some x) :
    l.filter (keyMatch a q) = [x] := by
  induction l with
  | nil => simp at hfind
  | cons hd t ih =>
    rcases List.pairwise_cons.mp hwf with ⟨hhd, ht⟩
    by_cases hp : keyMatch a q hd = true
    · simp only [List.find?_cons, hp, cond_true] at hfind
      have hx : hd = x := by injection hfind
      subst hx
      rw [List.filter_cons_of_pos hp]
      have hnone : t.filter (keyMatch a q) = [] := by
        rw [List.filter_eq_nil_iff]
        intro r hr
        rcases (keyMatch_iff a q hd).mp hp with ⟨ha1, hq1⟩
        intro hk
        rcases (keyMatch_iff a q r).mp hk with ⟨ha2, hq2⟩
        rcases hhd r hr with hne | hne
        · exact hne (by rw [ha1, ha2])
        · exact hne (by rw [hq1, hq2])
      rw [hnone]
    · simp only [List.find?_cons, Bool.of_not_eq_true hp, cond_false] at hfind
      rw [List.filter_cons_of_neg hp]
      exact ih ht hfind

/-- Replacing the unique key-matching row pointwise replaces it in the
filtered view, provided the replacement still matches the key. -/
theorem filter_map_update (p : ResponseRec → Bool) (f : ResponseRec → ResponseRec)
    (l : List ResponseRec) (x : ResponseRec)
    (hfilter : l.filter p = [x]) (hf : p (f x) = true) :
    (l.map (fun r => if p r then f r else r)).filter p = [f x] := by
  induction l with
  | nil => simp at hfilter
  | cons hd t ih =>
    by_cases hp : p hd = true
    · rw [List.filter_cons_of_pos hp] at hfilter
      have hx : hd = x := List.head_eq_of_cons_eq hfilter
      have ht : t.filter p = [] := List.tail_eq_of_cons_eq hfilter
      subst hx
      simp only [List.map_cons, if_pos hp]
      rw [List.filter_cons_of_pos hf]
      have hmapped : (t.map (fun r => if p r then f r else r)).filter p = [] := by
        rw [List.filter_eq_nil_iff] at ht ⊢
        intro r hr
        rcases List.mem_map.mp hr with ⟨r0, hr0, hr0eq⟩
        have hnr0 : ¬ p r0 = true := ht r0 hr0
        rw [← hr0eq, if_neg hnr0]
        exact hnr0
      rw [hmapped]
    · rw [List.filter_cons_of_neg hp] at hfilter
      simp only [List.map_cons, if_neg hp]
      rw [List.filter_cons_of_neg hp]
      exact ih hfilter

/-- A map that does not change any row's key preserves the unique index. -/
theorem keyUnique_map (l : List ResponseRec) (g : ResponseRec → ResponseRec)
    (hg : ∀ r, (g r).attemptId = r.attemptId ∧ (g r).questionId = r.questionId)
    (h : keyUnique l) : keyUnique (l.map g) := by
  unfold keyUnique at h ⊢
  rw [List.pairwise_map]
  refine h.imp ?_
  intro a b hab
  rcases hab with h1 | h2
  · exact Or.inl (by rw [(hg a).1, (hg b).1]; exact h1)
  · exact Or.inr (by rw [(hg a).2, (hg b).2]; exact h2)

/-- Question fixture for the claim C7 counterexample (a manually gradable
type; the upsert does not depend on it). -/
def qC7 : Question :=
  { id := 1, type := QUESTION_TYPE.text, ans := none, maxScore := 2, negativeScore := 0,
    partialMarking := false, options := [] }

/-- Attempt fixture for the claim C7 counterexample. -/
def aC7 : Attempt :=
  { id := 1, testId := 1, userId := 1, submittedAt := none, totalScore := none,
    status := ATTEMPT_STATUS.submitted }

/-- An already graded response: score 5, evaluated. -/
def rC7 : ResponseRec :=
  { id := 1, attemptId := 1, questionId := 1, selectedOptionIds := [1],
    answerText := none, score := some 5, evaluated := true }

/-- Store fixture for the claim C7 counterexample. -/
def dbC7 : DB :=
  { tests := [], questions := [qC7], attempts := [aC7], responses := [rC7],
    nextResponseId := 9 }

/-- Counterexample for claim C7: resubmitting the same `(attemptId,
questionId)` pair without a score does not leave the stored score unchanged
— the update branch writes `score: data.score ? ... : null`, wiping the
previously stored 5 to `null`. -/
theorem resubmit_wipes_score_cex :
    dbC7.responses.map (fun r => r.score) = [some 5] ∧
    ((submitResponse 1 1 { selectedOptionIds := some [2], answerText := none, score := none }
      dbC7).fst.responses.map (fun r => r.score)) = [none] ∧
    some (5 : Rat) ≠ (none : Option Rat) := by
  decide

/-- Claim C7 as amended: the update branch of `submitResponse` overwrites
`selectedOptionIds` and `answerText`, always overwrites `score` — to the
supplied value when the caller supplies a non-zero score, and to `null` when
the caller omits it (or supplies the falsy 0) — and leaves `evaluated`
unchanged; no row is created or deleted. -/
theorem submitResponse_update_effects (a q : Int) (d : SubmitData) (s : DB)
    (old : ResponseRec)
    (hwf : keyUnique s.responses)
    (hatt : (findAttempt s a).isSome)
    (hq : (findQuestion s q).isSome)
    (hold : findResponseByKey s a q = some old) :
    (submitResponse a q d s).fst.responses.filter (keyMatch a q) =
      [{ old with
          selectedOptionIds := jsOrEmptyList d.selectedOptionIds
          answerText := jsStrOrNull d.answerText
          score := jsScoreOrNull d.score }] ∧
    ({ old with
        selectedOptionIds := jsOrEmptyList d.selectedOptionIds
        answerText := jsStrOrNull d.answerText
        score := jsScoreOrNull d.score } : ResponseRec).evaluated = old.evaluated ∧
    (submitResponse a q d s).fst.responses.length = s.responses.length := by
  rcases Option.isSome_iff_exists.mp hatt with ⟨att, hatt'⟩
  rcases Option.isSome_iff_exists.mp hq with ⟨qq, hq'⟩
  have hkey : keyMatch a q old = true := List.find?_some hold
  have hstate : (submitResponse a q d s).fst =
      { s with responses := s.responses.map (fun r =>
          if keyMatch a q r then
            { old with
                selectedOptionIds := jsOrEmptyList d.selectedOptionIds
                answerText := jsStrOrNull d.answerText
                score := jsScoreOrNull d.score }
          else r) } := by
    unfold submitResponse
    rw [hatt', hq', hold]
  rw [hstate]
  refine ⟨?_, rfl, by simp⟩
  exact filter_map_update _ _ _ old (filter_key_single a q s.responses old hwf hold)
    (by rw [keyMatch_iff] at hkey ⊢; exact hkey)

/-- Witness for claim C7 (amended): on a concrete store holding one graded
row, a resubmission without a score rewrites the row's payload, nulls the
score, and keeps `evaluated = true`. -/
theorem submitResponse_update_effects_witness :
    (keyUnique dbC7.responses ∧ (findAttempt dbC7 1).isSome ∧ (findQuestion dbC7 1).isSome ∧
      findResponseByKey dbC7 1 1 = some rC7) ∧
    (submitResponse 1 1 { selectedOptionIds := some [2], answerText := some "x", score := none }
        dbC7).fst.responses.filter (keyMatch 1 1) =
      [{ rC7 with
          selectedOptionIds := jsOrEmptyList (some [2])
          answerText := jsStrOrNull (some "x")
          score := jsScoreOrNull none }] ∧
    ({ rC7 with
        selectedOptionIds := jsOrEmptyList (some [2])
        answerText := jsStrOrNull (some "x")
        score := jsScoreOrNull none } : ResponseRec).evaluated = rC7.evaluated ∧
    (submitResponse 1 1 { selectedOptionIds := some [2], answerText := some "x", score := none }
        dbC7).fst.responses.length = dbC7.responses.length := by
  refine ⟨⟨?_, by decide, by decide, by decide⟩, ?_⟩
  · unfold keyUnique
    simp [dbC7]
  · exact submitResponse_update_effects 1 1
      { selectedOptionIds := some [2], answerText := some "x", score := none } dbC7 rC7
      (by unfold keyUnique; simp [dbC7]) (by decide) (by decide) (by decide)

/-- The report's accumulation — add `score` when it is not `NULL` — equals
the sum over the non-null-score rows. -/
theorem sum_scores_filter (l : List ResponseRec) :
    (l.map (fun r =>
      match r.score with
      | some v => v
      | none => 0)).sum =
    ((l.filter (fun r => r.score.isSome)).map (fun r => r.score.getD 0)).sum := by
  induction l with
  | nil => rfl
  | cons hd t ih =>
    rcases hs : hd.score with _ | v
    · rw [List.filter_cons_of_neg (by simp [hs])]
      simp [hs, ih]
    · rw [List.filter_cons_of_pos (by simp [hs])]
      simp [hs, ih]

/-- Claim C9: for an existing attempt, `getAttemptScoreReport` leaves the
store untouched and returns a `total_score` equal to the sum of `score` over
the attempt's responses whose stored score is non-null; the total is computed
from the responses alone, so it is unchanged under any modification of the
store that keeps the response table (in particular any rewrite of
`attempt.totalScore`). -/
theorem score_report_spec (aid : Int) (s : DB) (att : Attempt)
    (hatt : findAttempt s aid = some att) :
    (getAttemptScoreReport aid s).fst = s ∧
    (∃ rep : ScoreReport, (getAttemptScoreReport aid s).snd = Except.ok rep ∧
      rep.total_score =
        (((responsesOf s aid).filter (fun r => r.score.isSome)).map
          (fun r => r.score.getD 0)).sum ∧
      (∀ (s2 : DB) (att2 : Attempt), s2.responses = s.responses →
        findAttempt s2 aid = some att2 →
        ∃ rep2 : ScoreReport, (getAttemptScoreReport aid s2).snd = Except.ok rep2 ∧
          rep2.total_score = rep.total_score)) := by
  have hsnd : (getAttemptScoreReport aid s).snd = Except.ok
      { attempt := formatAttempt att
        responses := (responsesOf s aid).map formatResponse
        total_score := ((responsesOf s aid).map (fun r =>
          match r.score with
          | some v => v
          | none => 0)).sum } := by
    unfold getAttemptScoreReport
    rw [hatt]
  refine ⟨by unfold getAttemptScoreReport; rw [hatt], _, hsnd, sum_scores_filter _, ?_⟩
  intro s2 att2 hresp hatt2
  have hsnd2 : (getAttemptScoreReport aid s2).snd = Except.ok
      { attempt := formatAttempt att2
        responses := (responsesOf s2 aid).map formatResponse
        total_score := ((responsesOf s2 aid).map (fun r =>
          match r.score with
          | some v => v
          | none => 0)).sum } := by
    unfold getAttemptScoreReport
    rw [hatt2]
  refine ⟨_, hsnd2, ?_⟩
  show ((responsesOf s2 aid).map _).sum = ((responsesOf s aid).map _).sum
  unfold responsesOf
  rw [hresp]

/-- Attempt fixture for the claim C9 witness, carrying a stale
`totalScore = 7` that the report must ignore. -/
def aC9 : Attempt :=
  { id := 2, testId := 1, userId := 1, submittedAt := some 1, totalScore := some 7,
    status := ATTEMPT_STATUS.submitted }

/-- Response fixtures: one graded (score 4), one ungraded (`NULL` score). -/
def rC9a : ResponseRec :=
  { id := 1, attemptId := 2, questionId := 1, selectedOptionIds := [],
    answerText := some "x", score := some 4, evaluated := true }

/-- Second response fixture for the claim C9 witness. -/
def rC9b : ResponseRec :=
  { id := 2, attemptId := 2, questionId := 2, selectedOptionIds := [],
    answerText := none, score := none, evaluated := false }

/-- Store fixture for the claim C9 witness. -/
def dbC9 : DB :=
  { tests := [], questions := [], attempts := [aC9], responses := [rC9a, rC9b],
    nextResponseId := 3 }

/-- Witness for claim C9: the report on the concrete store returns the
store unchanged and a total of 4 (the stale `attempt.totalScore = 7` and the
`NULL`-score response are ignored). -/
theorem score_report_spec_witness :
    findAttempt dbC9 2 = some aC9 ∧
    (getAttemptScoreReport 2 dbC9).fst = dbC9 ∧
    (∃ rep : ScoreReport, (getAttemptScoreReport 2 dbC9).snd = Except.ok rep ∧
      rep.total_score =
        (((responsesOf dbC9 2).filter (fun r => r.score.isSome)).map
          (fun r => r.score.getD 0)).sum ∧
      rep.total_score = 4) := by
  have h := score_report_spec 2 dbC9 aC9 (by decide)
  rcases h.2 with ⟨rep, hok, hsum, _⟩
  refine ⟨by decide, h.1, rep, hok, hsum, ?_⟩
  rw [hsum]
  have hfil : (responsesOf dbC9 2).filter (fun r => r.score.isSome) = [rC9a] := by decide
  rw [hfil]
  simp [rC9a]

/-- Updating the found attempt in place (same id) leaves it findable with
the updated fields. -/
theorem findAttempt_map_update (l : List Attempt) (aid : Int) (att att2 : Attempt)
    (hfind : l.find? (fun a => a.id == aid) = some att) (hid : att2.id = att.id) :
    (l.map (fun a => if a.id == aid then att2 else a)).find? (fun a => a.id == aid) =
      some att2 := by
  induction l with
  | nil => simp at hfind
  | cons hd t ih =>
    by_cases hp : (hd.id == aid) = true
    · simp only [List.find?_cons, hp, cond_true] at hfind
      have hhd : hd = att := by injection hfind
      have hp2 : (att2.id == aid) = true := by
        rw [hid, ← hhd]
        exact hp
      simp only [List.map_cons, if_pos hp, List.find?_cons, hp2, cond_true]
    · have hp' : (hd.id == aid) = false := Bool.of_not_eq_true hp
      simp only [List.find?_cons, hp', cond_false] at hfind
      simp only [List.map_cons, hp', Bool.false_eq_true, if_false, List.find?_cons, cond_false]
      exact ih hfind

/-- The `unevaluatedCount === 0` re-read test holds exactly when every
response of the attempt is evaluated after the pass. -/
theorem agUnevaluatedCount_eq_zero_iff (aid : Int) (s : DB) (ap : Bool) :
    agUnevaluatedCount aid s ap = 0 ↔
      ∀ r ∈ agResponses aid s ap, r.attemptId = aid → r.evaluated = true := by
  unfold agUnevaluatedCount
  rw [List.length_eq_zero, List.filter_eq_nil_iff]
  constructor
  · intro h r hr haid
    by_contra hev
    have hmem : r ∈ (agResponses aid s ap).filter (fun r => r.attemptId == aid) :=
      List.mem_filter.mpr ⟨hr, by simp [haid]⟩
    have hres := h r hmem
    simp only [Bool.not_eq_true', Bool.not_eq_false] at hres
    exact hev hres
  · intro h r hr
    rcases List.mem_filter.mp hr with ⟨hmem, hkey⟩
    have hev := h r hmem (by simpa using hkey)
    simp [hev]

/-- Test fixture for claim C5. -/
def tC5 : TestRec := { id := 1, allowNegativeMarking := false, allowPartialMarking := false }

/-- A graded attempt. -/
def aC5 : Attempt :=
  { id := 1, testId := 1, userId := 1, submittedAt := some 3, totalScore := some 2,
    status := ATTEMPT_STATUS.graded }

/-- An attempt still in progress, with no responses. -/
def aC5b : Attempt :=
  { id := 2, testId := 1, userId := 1, submittedAt := none, totalScore := none,
    status := ATTEMPT_STATUS.in_progress }

/-- Store fixture for claim C5. -/
def dbC5 : DB :=
  { tests := [tC5], questions := [], attempts := [aC5, aC5b], responses := [],
    nextResponseId := 1 }

/-- Counterexample for claim C5: `submitAttempt` on a graded attempt moves
it back to `submitted` (an operation does leave `graded`), and
`autoGradeAttempt` on an in-progress attempt with no unevaluated responses
moves it straight to `graded` with no intervening `submitted`. -/
theorem status_machine_violated_cex :
    aC5.status = ATTEMPT_STATUS.graded ∧
    (findAttempt (submitAttempt 1 none 9 dbC5).fst 1).map (fun a => a.status) =
      some ATTEMPT_STATUS.submitted ∧
    aC5b.status = ATTEMPT_STATUS.in_progress ∧
    (findAttempt (autoGradeAttempt 2 dbC5).fst 2).map (fun a => a.status) =
      some ATTEMPT_STATUS.graded ∧
    ATTEMPT_STATUS.submitted ≠ ATTEMPT_STATUS.graded := by
  decide

/-- Claim C5 as amended: `gradeResponse` never touches any attempt row;
`submitAttempt` on an existing attempt always sets its status to
`submitted`, whatever the previous status (including `graded`); and
`autoGradeAttempt` on an existing attempt sets the status to `graded`
exactly when no response of the attempt remains unevaluated after the pass
and to `submitted` otherwise, regardless of the previous status — so it can
move `graded` back to `submitted` and `in_progress` straight to `graded`. -/
theorem attempt_status_effects :
    (∀ (rid : Int) (sc : Rat) (s : DB), (gradeResponse rid sc s).fst.attempts = s.attempts) ∧
    (∀ (aid : Int) (st : Option Int) (now : Int) (s : DB) (att : Attempt),
      findAttempt s aid = some att →
      ∃ att2, findAttempt (submitAttempt aid st now s).fst aid = some att2 ∧
        att2.status = ATTEMPT_STATUS.submitted) ∧
    (∀ (aid : Int) (s : DB) (att : Attempt),
      findAttempt s aid = some att →
      ∃ att2, findAttempt (autoGradeAttempt aid s).fst aid = some att2 ∧
        (att2.status = ATTEMPT_STATUS.graded ↔
          ∀ r ∈ (autoGradeAttempt aid s).fst.responses, r.attemptId = aid →
            r.evaluated = true) ∧
        (att2.status = ATTEMPT_STATUS.graded ∨ att2.status = ATTEMPT_STATUS.submitted)) := by
  refine ⟨?_, ?_, ?_⟩
  · intro rid sc s
    rcases h : findResponse s rid with _ | old <;> simp [gradeResponse, h]
  · intro aid st now s att hfind
    refine ⟨{ att with status := ATTEMPT_STATUS.submitted, submittedAt := some (st.getD now) },
      ?_, rfl⟩
    unfold submitAttempt
    rw [hfind]
    exact findAttempt_map_update s.attempts aid att _ hfind rfl
  · intro aid s att hfind
    have hstate : (autoGradeAttempt aid s).fst =
        { s with
          attempts := s.attempts.map (fun a =>
            if a.id == aid then agAttempt aid s (allowPartialOf s att) att else a)
          responses := agResponses aid s (allowPartialOf s att) } := by
      unfold autoGradeAttempt
      rw [hfind]
    refine ⟨agAttempt aid s (allowPartialOf s att) att, ?_, ?_, ?_⟩
    · rw [hstate]
      exact findAttempt_map_update s.attempts aid att _ hfind rfl
    · rw [hstate]
      show (agAttempt aid s (allowPartialOf s att) att).status = _ ↔ _
      unfold agAttempt
      by_cases hc : agUnevaluatedCount aid s (allowPartialOf s att) = 0
      · simp only [if_pos hc]
        constructor
        · intro _
          exact (agUnevaluatedCount_eq_zero_iff aid s _).mp hc
        · intro _
          trivial
      · simp only [if_neg hc]
        constructor
        · intro habs
          cases habs
        · intro hall
          exact absurd ((agUnevaluatedCount_eq_zero_iff aid s _).mpr hall) hc
    · unfold agAttempt
      by_cases hc : agUnevaluatedCount aid s (allowPartialOf s att) = 0
      · exact Or.inl (by simp [if_pos hc])
      · exact Or.inr (by simp [if_neg hc])

/-- Witness for claim C5 (amended): the three characterizations applied on
the concrete store — grading touches no attempt, submitting the graded
attempt yields `submitted`, auto-grading the in-progress attempt yields a
status matching the all-evaluated test. -/
theorem attempt_status_effects_witness :
    (gradeResponse 1 2 dbC5).fst.attempts = dbC5.attempts ∧
    (∃ att2, findAttempt (submitAttempt 1 none 9 dbC5).fst 1 = some att2 ∧
      att2.status = ATTEMPT_STATUS.submitted) ∧
    (∃ att2, findAttempt (autoGradeAttempt 2 dbC5).fst 2 = some att2 ∧
      (att2.status = ATTEMPT_STATUS.graded ↔
        ∀ r ∈ (autoGradeAttempt 2 dbC5).fst.responses, r.attemptId = 2 →
          r.evaluated = true) ∧
      (att2.status = ATTEMPT_STATUS.graded ∨ att2.status = ATTEMPT_STATUS.submitted)) :=
  ⟨attempt_status_effects.1 1 2 dbC5,
   attempt_status_effects.2.1 1 none 9 dbC5 aC5 (by decide),
   attempt_status_effects.2.2 2 dbC5 aC5b (by decide)⟩

/-- A sequence of `submitResponse` calls for one `(attemptId, questionId)`
pair, threading the store. -/
def submitRun (a q : Int) (ds : List SubmitData) (s : DB) : DB :=
  ds.foldl (fun st d => (submitResponse a q d st).fst) s

/-- One step of the run. -/
theorem submitRun_cons (a q : Int) (d : SubmitData) (ds : List SubmitData) (s : DB) :
    submitRun a q (d :: ds) s = submitRun a q ds (submitResponse a q d s).fst := rfl

/-- `submitResponse` only writes the response table and the id sequence. -/
theorem submitResponse_frame (a q : Int) (d : SubmitData) (s : DB) :
    (submitResponse a q d s).fst.attempts = s.attempts ∧
    (submitResponse a q d s).fst.questions = s.questions := by
  unfold submitResponse
  rcases h1 : findAttempt s a with _ | att <;>
    rcases h2 : findQuestion s q with _ | qq <;>
      rcases h3 : findResponseByKey s a q with _ | old <;>
        simp [h1, h2, h3]

/-- Invariant of the update path: once exactly one row exists for the key,
any further sequence of submissions keeps exactly one row, never touches
`evaluated`, and ends holding the payload of the last submission (or the
unchanged row when the sequence is empty). -/
theorem submitRun_key_invariant (a q : Int) (ds : List SubmitData) :
    ∀ (s : DB) (row : ResponseRec),
      keyUnique s.responses →
      (findAttempt s a).isSome →
      (findQuestion s q).isSome →
      s.responses.filter (keyMatch a q) = [row] →
      keyUnique (submitRun a q ds s).responses ∧
      ∃ row2, (submitRun a q ds s).responses.filter (keyMatch a q) = [row2] ∧
        row2.evaluated = row.evaluated ∧
        ((ds = [] ∧ row2 = row) ∨
          (∃ dl, ds.getLast? = some dl ∧
            row2.selectedOptionIds = jsOrEmptyList dl.selectedOptionIds ∧
            row2.answerText = jsStrOrNull dl.answerText ∧
            row2.score = jsScoreOrNull dl.score)) := by
  induction ds with
  | nil =>
    intro s row hwf _ _ hrow
    exact ⟨hwf, row, hrow, rfl, Or.inl ⟨rfl, rfl⟩⟩
  | cons d rest ih =>
    intro s row hwf hatt hq hrow
    rcases Option.isSome_iff_exists.mp hatt with ⟨att, hatt'⟩
    rcases Option.isSome_iff_exists.mp hq with ⟨qq, hq'⟩
    have hfind : findResponseByKey s a q = some row :=
      find?_of_filter_single (keyMatch a q) s.responses row hrow
    have hkeyrow : keyMatch a q row = true := List.find?_some hfind
    have hstate : (submitResponse a q d s).fst =
        { s with responses := s.responses.map (fun r =>
            if keyMatch a q r then
              { row with
                  selectedOptionIds := jsOrEmptyList d.selectedOptionIds
                  answerText := jsStrOrNull d.answerText
                  score := jsScoreOrNull d.score }
            else r) } := by
      unfold submitResponse
      rw [hatt', hq', hfind]
    have hkeyupd : keyMatch a q
        ({ row with
            selectedOptionIds := jsOrEmptyList d.selectedOptionIds
            answerText := jsStrOrNull d.answerText
            score := jsScoreOrNull d.score } : ResponseRec) = true := by
      rw [keyMatch_iff] at hkeyrow ⊢
      exact hkeyrow
    have hwf1 : keyUnique (submitResponse a q d s).fst.responses := by
      rw [hstate]
      refine keyUnique_map _ _ ?_ hwf
      intro r
      by_cases hk : keyMatch a q r = true
      · rw [if_pos hk]
        rcases (keyMatch_iff a q r).mp hk with ⟨h1, h2⟩
        rcases (keyMatch_iff a q _).mp hkeyupd with ⟨h3, h4⟩
        exact ⟨by rw [h3, h1], by rw [h4, h2]⟩
      · rw [if_neg hk]
        exact ⟨rfl, rfl⟩
    have hatt1 : (findAttempt (submitResponse a q d s).fst a).isSome := by
      unfold findAttempt at hatt ⊢
      rw [(submitResponse_frame a q d s).1]
      exact hatt
    have hq1 : (findQuestion (submitResponse a q d s).fst q).isSome := by
      unfold findQuestion at hq ⊢
      rw [(submitResponse_frame a q d s).2]
      exact hq
    have hrow1 : (submitResponse a q d s).fst.responses.filter (keyMatch a q) =
        [{ row with
            selectedOptionIds := jsOrEmptyList d.selectedOptionIds
            answerText := jsStrOrNull d.answerText
            score := jsScoreOrNull d.score }] := by
      rw [hstate]
      exact filter_map_update _ _ _ row hrow hkeyupd
    rw [submitRun_cons]
    rcases ih (submitResponse a q d s).fst _ hwf1 hatt1 hq1 hrow1 with
      ⟨hku, row2, hfil2, hev2, hlast2⟩
    refine ⟨hku, row2, hfil2, by rw [hev2], ?_⟩
    rcases hlast2 with ⟨hds, hrow2⟩ | ⟨dl, hdl, hf1, hf2, hf3⟩
    · subst hds
      exact Or.inr ⟨d, rfl, by rw [hrow2], by rw [hrow2], by rw [hrow2]⟩
    · refine Or.inr ⟨dl, ?_, hf1, hf2, hf3⟩
      rcases rest with _ | ⟨d1, rest'⟩
      · simp at hdl
      · rw [List.getLast?_cons_cons]
        exact hdl

/-- Claim C6: starting from a store with no row for the pair and a valid
attempt and question, any non-empty sequence of `submitResponse` calls for
`(attemptId, questionId)` leaves exactly one row for the pair — created with
`evaluated = false` by the first call and never flipped by later calls —
whose payload is the last call's (after the store's JavaScript coalescing
`|| []` / `|| null`); the unique index holds throughout, so no sequence of
calls produces duplicate rows. -/
theorem submitResponse_upsert_spec (a q : Int) (d0 : SubmitData) (ds : List SubmitData)
    (s : DB) (dl : SubmitData)
    (hwf : keyUnique s.responses)
    (hatt : (findAttempt s a).isSome)
    (hq : (findQuestion s q).isSome)
    (hfresh : findResponseByKey s a q = none)
    (hlast : (d0 :: ds).getLast? = some dl) :
    keyUnique (submitRun a q (d0 :: ds) s).responses ∧
    ∃ row, (submitRun a q (d0 :: ds) s).responses.filter (keyMatch a q) = [row] ∧
      row.selectedOptionIds = jsOrEmptyList dl.selectedOptionIds ∧
      row.answerText = jsStrOrNull dl.answerText ∧
      row.evaluated = false := by
  rcases Option.isSome_iff_exists.mp hatt with ⟨att, hatt'⟩
  rcases Option.isSome_iff_exists.mp hq with ⟨qq, hq'⟩
  have hstate : (submitResponse a q d0 s).fst =
      { s with
        responses := s.responses ++ [createdRow a q d0 s]
        nextResponseId := s.nextResponseId + 1 } := by
    unfold submitResponse
    rw [hatt', hq', hfresh]
  have hnone : s.responses.filter (keyMatch a q) = [] := by
    rw [List.filter_eq_nil_iff]
    intro r hr
    exact List.find?_eq_none.mp hfresh r hr
  have hkeycreated : keyMatch a q (createdRow a q d0 s) = true := by
    rw [keyMatch_iff]
    exact ⟨rfl, rfl⟩
  have hrow1 : (submitResponse a q d0 s).fst.responses.filter (keyMatch a q) =
      [createdRow a q d0 s] := by
    rw [hstate]
    show (s.responses ++ [createdRow a q d0 s]).filter (keyMatch a q) = _
    rw [List.filter_append, hnone, List.filter_cons_of_pos hkeycreated]
    rfl
  have hwf1 : keyUnique (submitResponse a q d0 s).fst.responses := by
    rw [hstate]
    show keyUnique (s.responses ++ [createdRow a q d0 s])
    unfold keyUnique
    rw [List.pairwise_append]
    refine ⟨hwf, by simp, ?_⟩
    intro r hr c hc
    have hceq : c = createdRow a q d0 s := List.mem_singleton.mp hc
    subst hceq
    have hnr : ¬ keyMatch a q r = true := List.find?_eq_none.mp hfresh r hr
    rw [keyMatch_iff] at hnr
    rcases not_and_or.mp hnr with h | h
    · exact Or.inl (by simpa [createdRow] using h)
    · exact Or.inr (by simpa [createdRow] using h)
  have hatt1 : (findAttempt (submitResponse a q d0 s).fst a).isSome := by
    unfold findAttempt at hatt ⊢
    rw [(submitResponse_frame a q d0 s).1]
    exact hatt
  have hq1 : (findQuestion (submitResponse a q d0 s).fst q).isSome := by
    unfold findQuestion at hq ⊢
    rw [(submitResponse_frame a q d0 s).2]
    exact hq
  rw [submitRun_cons]
  rcases submitRun_key_invariant a q ds (submitResponse a q d0 s).fst (createdRow a q d0 s)
    hwf1 hatt1 hq1 hrow1 with ⟨hku, row2, hfil2, hev2, hlast2⟩
  have hevfalse : row2.evaluated = false := by
    rw [hev2]
    rfl
  rcases hlast2 with ⟨hds, hrow2⟩ | ⟨dl', hdl', hf1, hf2, _⟩
  · subst hds
    have hdl0 : dl = d0 := by
      simp only [List.getLast?_singleton] at hlast
      injection hlast with h
      exact h.symm
    subst hdl0
    exact ⟨hku, row2, hfil2, by rw [hrow2]; rfl, by rw [hrow2]; rfl, hevfalse⟩
  · have hne : ds ≠ [] := by
      intro h
      subst h
      simp at hdl'
    have hshift : (d0 :: ds).getLast? = ds.getLast? := by
      rcases ds with _ | ⟨d1, rest⟩
      · exact absurd rfl hne
      · exact List.getLast?_cons_cons
    rw [hshift, hdl'] at hlast
    injection hlast with hdleq
    subst hdleq
    exact ⟨hku, row2, hfil2, hf1, hf2, hevfalse⟩

/-- Question fixture for the claim C6 witness. -/
def qC6 : Question :=
  { id := 4, type := QUESTION_TYPE.text, ans := none, maxScore := 1, negativeScore := 0,
    partialMarking := false, options := [] }

/-- Attempt fixture for the claim C6 witness. -/
def aC6 : Attempt :=
  { id := 3, testId := 1, userId := 1, submittedAt := none, totalScore := none,
    status := ATTEMPT_STATUS.in_progress }

/-- Store fixture for the claim C6 witness: no responses yet. -/
def dbC6 : DB :=
  { tests := [], questions := [qC6], attempts := [aC6], responses := [],
    nextResponseId := 1 }

/-- First submission payload. -/
def dC6a : SubmitData := { selectedOptionIds := some [1], answerText := none, score := none }

/-- Second, different submission payload. -/
def dC6b : SubmitData :=
  { selectedOptionIds := some [2, 3], answerText := some "two", score := none }

/-- Witness for claim C6: two successive submissions for the same pair on
the concrete store leave exactly one row holding the second payload with
`evaluated = false`. -/
theorem submitResponse_upsert_spec_witness :
    (keyUnique dbC6.responses ∧ (findAttempt dbC6 3).isSome ∧ (findQuestion dbC6 4).isSome ∧
      findResponseByKey dbC6 3 4 = none ∧ [dC6a, dC6b].getLast? = some dC6b) ∧
    (keyUnique (submitRun 3 4 [dC6a, dC6b] dbC6).responses ∧
      ∃ row, (submitRun 3 4 [dC6a, dC6b] dbC6).responses.filter (keyMatch 3 4) = [row] ∧
        row.selectedOptionIds = jsOrEmptyList dC6b.selectedOptionIds ∧
        row.answerText = jsStrOrNull dC6b.answerText ∧
        row.evaluated = false) := by
  refine ⟨⟨?_, by decide, by decide, by decide, by decide⟩, ?_⟩
  · unfold keyUnique
    simp [dbC6]
  · exact submitResponse_upsert_spec 3 4 dC6a [dC6b] dbC6 dC6b
      (by unfold keyUnique; simp [dbC6]) (by decide) (by decide) (by decide) (by decide)

end AlzBackend
